import Mathlib

/-!
Verification of the TCM_Pro_Tuner repository's core behaviour.

Shallow embedding of `src/ui_simulator.py` (live simulator session) and
`src/TCM_script_creator.py` (AutoHotkey tick-script encoder).  Machine
floats of the Python source are modelled by exact rationals; wall-clock
times are passed explicitly as rational arguments wherever the Python
code calls `time.time()`.
-/

/-! ## Live simulator: `src/ui_simulator.py` -/

/-- Embeds `SimulatorInput` (ui_simulator.py, lines 13-17). -/
inductive SimulatorInput where
  | UP
  | DOWN
  | LEFT
  | RIGHT
deriving DecidableEq, Repr

/-- Embeds the dataclass `SettingRange` (ui_simulator.py, lines 19-25). -/
structure SettingRange where
  min_value : ℚ
  max_value : ℚ
  increment : ℚ
  default_value : ℚ := 0
  description : String := ""
deriving DecidableEq, Repr

/-- Embeds `ProSetting` (ui_simulator.py, lines 27-67): a name, its range and
the private field `_current_value`.  `ProSetting.__init__` stores the range's
default directly into `_current_value` (no clamping on construction). -/
structure ProSetting where
  name : String
  range : SettingRange
  current_value : ℚ
deriving DecidableEq, Repr

/-- Embeds `ProSetting.__init__` (ui_simulator.py, lines 28-31). -/
def ProSetting.init (name : String) (setting_range : SettingRange) : ProSetting :=
  { name := name, range := setting_range, current_value := setting_range.default_value }

/-- The two setting names whose adjustment direction is inverted in
`ProSetting.adjust` (ui_simulator.py, lines 55 and 61). -/
def invertedNames : List String := ["front_power_distrib", "front_brake_balance"]

/-- Embeds the `current_value` property setter (ui_simulator.py, lines 37-43):
every write clamps to `[min_value, max_value]`. -/
def ProSetting.setCurrentValue (p : ProSetting) (value : ℚ) : ProSetting :=
  { p with current_value := max p.range.min_value (min p.range.max_value value) }

/-- The unclamped candidate value `new_value` computed inside
`ProSetting.adjust` (ui_simulator.py, lines 53-64) before the clamping
setter is applied. -/
def ProSetting.rawNext (p : ProSetting) (direction : SimulatorInput) : ℚ :=
  match direction with
  | .RIGHT =>
      if p.name ∈ invertedNames then p.current_value - p.range.increment
      else p.current_value + p.range.increment
  | .LEFT =>
      if p.name ∈ invertedNames then p.current_value + p.range.increment
      else p.current_value - p.range.increment
  | _ => p.current_value

/-- Embeds `ProSetting.adjust` (ui_simulator.py, lines 45-67).  Returns the
updated setting together with the `True if value changed` boolean. -/
def ProSetting.adjust (p : ProSetting) (direction : SimulatorInput) : ProSetting × Bool :=
  match direction with
  | .UP => (p, false)
  | .DOWN => (p, false)
  | _ =>
      let old_value := p.current_value
      let p' := p.setCurrentValue (p.rawNext direction)
      (p', decide (old_value ≠ p'.current_value))

/-- Folds a sequence of `adjust` calls over a setting, keeping the updated
setting and discarding the changed flags. -/
def applyAdjusts (p : ProSetting) (ds : List SimulatorInput) : ProSetting :=
  ds.foldl (fun q d => (q.adjust d).1) p

/-- Embeds `SimulatorState` (ui_simulator.py, lines 69-105). -/
structure SimulatorState where
  settings : List ProSetting
  current_setting_index : ℕ
  last_input_time : ℚ
  start_time : ℚ
deriving DecidableEq, Repr

/-- Embeds `SimulatorState.__init__` (ui_simulator.py, lines 70-74); `t` is
the value of `time.time()` at construction. -/
def SimulatorState.init (settings : List ProSetting) (t : ℚ) : SimulatorState :=
  { settings := settings, current_setting_index := 0, last_input_time := t, start_time := t }

/-- Embeds `SimulatorState.get_current_setting` (ui_simulator.py, lines 76-79). -/
def SimulatorState.get_current_setting (s : SimulatorState) : Option ProSetting :=
  if s.settings.isEmpty then none
  else s.settings[s.current_setting_index]?

/-- Embeds `SimulatorState.handle_input` (ui_simulator.py, lines 81-97); `now`
is the value of `time.time()` during the call.  The Python guard
`current_setting_index < len(settings) - 1` is written `idx + 1 < len` so that
it is also faithful for an empty list (where `len - 1` is `-1` in Python). -/
def SimulatorState.handle_input (s : SimulatorState) (input_type : SimulatorInput)
    (now : ℚ) : SimulatorState × Bool :=
  let s1 := { s with last_input_time := now }
  match input_type with
  | .UP =>
      if 0 < s1.current_setting_index then
        ({ s1 with current_setting_index := s1.current_setting_index - 1 }, true)
      else (s1, false)
  | .DOWN =>
      if s1.current_setting_index + 1 < s1.settings.length then
        ({ s1 with current_setting_index := s1.current_setting_index + 1 }, true)
      else (s1, false)
  | _ =>
      match s1.get_current_setting with
      | some current_setting =>
          let r := current_setting.adjust input_type
          ({ s1 with settings := s1.settings.set s1.current_setting_index r.1 }, r.2)
      | none => (s1, false)

/-- Embeds `SimulatorState.is_timed_out` (ui_simulator.py, lines 99-105). -/
def SimulatorState.is_timed_out (s : SimulatorState) (now : ℚ) : Bool × String :=
  if 10 < now - s.last_input_time then (true, "No input received for 10 seconds")
  else if 30 < now - s.start_time then (true, "UI open for more than 30 seconds")
  else (false, "")

/-- Embeds the state owned by `BaseSimulator` (ui_simulator.py, lines 163-178):
its `SimulatorState` and the `running` flag.  The lock and thread objects are
modelled separately where a claim needs them. -/
structure BaseSimulator where
  state : SimulatorState
  running : Bool
deriving DecidableEq, Repr

/-- Embeds the flag effect of `BaseSimulator.start` (ui_simulator.py,
lines 180-186): sets `running = True` unconditionally. -/
def BaseSimulator.start (b : BaseSimulator) : BaseSimulator :=
  { b with running := true }

/-- Embeds the flag effect of `BaseSimulator.stop` (ui_simulator.py,
lines 188-194): clears `running` when it is set. -/
def BaseSimulator.stop (b : BaseSimulator) : BaseSimulator :=
  if b.running then { b with running := false } else b

/-- Embeds `BaseSimulator.handle_timeout` (ui_simulator.py, lines 215-218):
its body sets `running = False`. -/
def BaseSimulator.handle_timeout (b : BaseSimulator) : BaseSimulator :=
  { b with running := false }

/-- Embeds `BaseSimulator.handle_input` (ui_simulator.py, lines 209-213). -/
def BaseSimulator.handle_input (b : BaseSimulator) (input_type : SimulatorInput)
    (now : ℚ) : BaseSimulator × Bool :=
  if b.running then
    let r := b.state.handle_input input_type now
    ({ b with state := r.1 }, r.2)
  else (b, false)

/-- The intended atomic effect of one pass of the watchdog loop
`BaseSimulator._check_timeout` (ui_simulator.py, lines 196-207): when the
simulator is running and the state reports a timeout, `handle_timeout`
clears the flag; otherwise nothing changes. -/
def BaseSimulator.watchdogCheck (b : BaseSimulator) (now : ℚ) : BaseSimulator :=
  if b.running && (b.state.is_timed_out now).1 then b.handle_timeout else b

/-- One externally observable event of a `BaseSimulator` session: an explicit
`start()` or `stop()` call, one `handle_input` delivery, or one watchdog
timeout check. -/
inductive SimStep where
  | start
  | stop
  | input (i : SimulatorInput) (now : ℚ)
  | watchdog (now : ℚ)
deriving DecidableEq, Repr

/-- Applies one session event to the simulator's flag-and-state pair. -/
def BaseSimulator.step (b : BaseSimulator) : SimStep → BaseSimulator
  | .start => b.start
  | .stop => b.stop
  | .input i now => (b.handle_input i now).1
  | .watchdog now => b.watchdogCheck now

/-- Applies a sequence of session events in order. -/
def BaseSimulator.run (b : BaseSimulator) (l : List SimStep) : BaseSimulator :=
  l.foldl BaseSimulator.step b

/-! ## Basic lemmas about `adjust` -/

theorem ProSetting.adjust_fst_name (p : ProSetting) (d : SimulatorInput) :
    ((p.adjust d).1).name = p.name := by
  cases d <;> rfl

theorem ProSetting.adjust_fst_range (p : ProSetting) (d : SimulatorInput) :
    ((p.adjust d).1).range = p.range := by
  cases d <;> rfl

theorem ProSetting.adjust_fst_mem_Icc (p : ProSetting) (d : SimulatorInput)
    (hlo : p.range.min_value ≤ p.current_value)
    (hhi : p.current_value ≤ p.range.max_value) :
    p.range.min_value ≤ ((p.adjust d).1).current_value ∧
      ((p.adjust d).1).current_value ≤ p.range.max_value := by
  have hmm : p.range.min_value ≤ p.range.max_value := le_trans hlo hhi
  cases d with
  | UP => exact ⟨hlo, hhi⟩
  | DOWN => exact ⟨hlo, hhi⟩
  | LEFT =>
      constructor
      · exact le_max_left _ _
      · exact max_le hmm (min_le_left _ _)
  | RIGHT =>
      constructor
      · exact le_max_left _ _
      · exact max_le hmm (min_le_left _ _)

/-- Folding any sequence of `adjust` calls over a setting whose value starts
inside its range keeps the range unchanged and the value inside the range. -/
theorem applyAdjusts_mem_Icc (p : ProSetting) (ds : List SimulatorInput)
    (hlo : p.range.min_value ≤ p.current_value)
    (hhi : p.current_value ≤ p.range.max_value) :
    (applyAdjusts p ds).range = p.range ∧
      p.range.min_value ≤ (applyAdjusts p ds).current_value ∧
      (applyAdjusts p ds).current_value ≤ p.range.max_value := by
  induction ds generalizing p with
  | nil => exact ⟨rfl, hlo, hhi⟩
  | cons d rest ih =>
      have hr := ProSetting.adjust_fst_range p d
      have hm := ProSetting.adjust_fst_mem_Icc p d hlo hhi
      have := ih ((p.adjust d).1) (hr ▸ hm.1) (hr ▸ hm.2)
      simpa [applyAdjusts, hr] using this

/-! ## Encoder: `src/TCM_script_creator.py` -/

/-- Python's built-in `round` on an exactly representable argument: nearest
integer, with a tie (fractional part exactly one half) resolved to the even
neighbour.  This is the rounding used by `CarSetting.get_keystrokes`
(TCM_script_creator.py, lines 88 and 99). -/
def pythonRound (q : ℚ) : ℤ :=
  if q - ⌊q⌋ < 1 / 2 then ⌊q⌋
  else if 1 / 2 < q - ⌊q⌋ then ⌊q⌋ + 1
  else if ⌊q⌋ % 2 = 0 then ⌊q⌋ else ⌊q⌋ + 1

/-- Rounding to the nearest integer with ties away from zero: the policy the
specification ascribes to the encoder. -/
def roundHalfAwayFromZero (q : ℚ) : ℤ :=
  if 0 ≤ q then ⌊q + 1 / 2⌋ else -⌊-q + 1 / 2⌋

/-- Embeds `SETTING_INCREMENTS` (TCM_script_creator.py, lines 17-36). -/
def SETTING_INCREMENTS : List (String × ℚ) :=
  [("final_drive", 1), ("front_power_distrib", 1), ("grip_front", 1),
   ("grip_rear", 1), ("front_brake_balance", 1), ("brake_power", 1),
   ("load_front", 1), ("load_rear", 1), ("spring_front", 1),
   ("spring_rear", 1), ("compression_front", 1), ("compression_rear", 1),
   ("rebound_front", 1), ("rebound_rear", 1), ("arb_front", 1),
   ("arb_rear", 1), ("camber_front", 1 / 100), ("camber_rear", 1 / 100)]

/-- Embeds `SETTING_DEFAULTS` (TCM_script_creator.py, lines 39-42): the two
settings with a non-zero fixed start, in encoder units (whole percents). -/
def SETTING_DEFAULTS : List (String × ℤ) :=
  [("front_power_distrib", 60), ("front_brake_balance", 80)]

/-- Embeds the dataclass `CarSetting` (TCM_script_creator.py, lines 72-78). -/
structure CarSetting where
  name : String
  value : ℚ
  increment : ℚ
  is_delta : Bool
deriving DecidableEq, Repr

/-- Embeds `CarSetting.get_keystrokes` (TCM_script_creator.py, lines 80-101).
Python's falsy test `if not self.value` is the test `value = 0` on rationals,
and `round` is `pythonRound`. -/
def CarSetting.get_keystrokes (c : CarSetting) : List String :=
  match SETTING_DEFAULTS.lookup c.name with
  | some start_value =>
      let ticks := pythonRound (((start_value : ℚ) - c.value) / c.increment)
      if 0 < ticks then List.replicate ticks.toNat "Right"
      else if ticks < 0 then List.replicate ticks.natAbs "Left"
      else []
  | none =>
      if c.value = 0 then []
      else
        let ticks := pythonRound (c.value / c.increment)
        let direction := if 0 < ticks then "Right" else "Left"
        List.replicate ticks.natAbs direction

/-- Embeds the list `all_settings` (TCM_script_creator.py, lines 110-116). -/
def all_settings : List String :=
  ["final_drive", "front_power_distrib", "grip_front", "grip_rear",
   "front_brake_balance", "brake_power", "load_front", "load_rear",
   "spring_front", "spring_rear", "compression_front", "compression_rear",
   "rebound_front", "rebound_rear", "arb_front", "arb_rear",
   "camber_front", "camber_rear"]

/-- Embeds `CarSetup` (TCM_script_creator.py, lines 103-134): the included
settings in canonical order and the auto-skipped names. -/
structure CarSetup where
  settings : List CarSetting
  auto_skipped_settings : List String
deriving DecidableEq, Repr

/-- Embeds `CarSetup.__init__` (TCM_script_creator.py, lines 105-134).  The
target configuration map is modelled as an association list. -/
def CarSetup.init (settings_dict : List (String × ℚ)) : CarSetup :=
  { settings := all_settings.filterMap (fun name =>
      match settings_dict.lookup name with
      | some value =>
          match SETTING_INCREMENTS.lookup name with
          | some increment =>
              some { name := name, value := value, increment := increment,
                     is_delta := (SETTING_DEFAULTS.lookup name) = none }
          | none => none
      | none => none),
    auto_skipped_settings := all_settings.filter (fun name =>
      !((settings_dict.lookup name).isSome && (SETTING_INCREMENTS.lookup name).isSome)) }

/-- The "advance to next setting" marker line emitted by
`CarSetup.generate_ahk_script` (TCM_script_creator.py, line 180). -/
def downLine : String := "    Send \x7bDown\x7d"

/-- The per-setting comment line emitted by `CarSetup.generate_ahk_script`
(TCM_script_creator.py, lines 174-177). -/
def adjustingComment (name : String) : String :=
  match SETTING_DEFAULTS.lookup name with
  | some start_value => "    ; Adjusting " ++ name ++ " (from " ++ toString start_value ++ "%)"
  | none => "    ; Adjusting " ++ name

/-- Embeds the per-setting loop of `CarSetup.generate_ahk_script`
(TCM_script_creator.py, lines 168-183), parameterised by the running
`needs_down` flag. -/
def scriptBody : List CarSetting → Bool → List String
  | [], _ => []
  | s :: rest, needs_down =>
      let keystrokes := s.get_keystrokes
      if keystrokes.isEmpty then scriptBody rest needs_down
      else
        [adjustingComment s.name]
          ++ (if needs_down then [downLine] else [])
          ++ keystrokes.map (fun key => "    Send \x7b" ++ key ++ "\x7d")
          ++ scriptBody rest true

/-- Embeds `CarSetup.generate_ahk_script` (TCM_script_creator.py,
lines 136-196) as the list of script lines (the Python function returns
their newline join). -/
def CarSetup.generate_ahk_script_lines (setup : CarSetup) : List String :=
  ["#SingleInstance Force",
   "SetWorkingDir %A_ScriptDir%",
   "",
   "; Command line mode support",
   "if (A_Args.Length() > 0 && A_Args[1] = \"--cli\") \x7b",
   "    SetTimer, ApplySettings, -100  ; Run after 100ms",
   "    return",
   "\x7d",
   "",
   "; Default starting positions:",
   "; - Front Power Distribution: Starts at 60% (right to decrease)",
   "; - Front Brake Balance: Starts at 80% (right to decrease)",
   "; - All other settings: Start at 0",
   "",
   "; Auto-skipped settings (not available for this car):"]
  ++ setup.auto_skipped_settings.map (fun setting => "; - " ++ setting)
  ++ ["",
      "ApplySettings:",
      "\x7b",
      "    SetKeyDelay, 50, 50  ; Adjust timing if needed",
      ""]
  ++ scriptBody setup.settings false
  ++ ["",
      "    if (A_Args.Length() > 0 && A_Args[1] = \"--cli\") \x7b",
      "        ExitApp",
      "    \x7d else \x7b",
      "        MsgBox, Settings applied!",
      "    \x7d",
      "    return",
      "\x7d"]

/-- Embeds the string actually returned by `CarSetup.generate_ahk_script`:
the newline join of the script lines. -/
def CarSetup.generate_ahk_script (setup : CarSetup) : String :=
  String.intercalate "\n" setup.generate_ahk_script_lines

/-! ## Rounding lemmas -/

theorem pythonRound_intCast (k : ℤ) : pythonRound (k : ℚ) = k := by
  unfold pythonRound
  rw [Int.floor_intCast]
  norm_num

theorem pythonRound_zero : pythonRound 0 = 0 := by
  simpa using pythonRound_intCast 0

/-! ## Claim theorems: live session -/

/-- C3: for every `BaseSimulator` whose `running` flag is false,
`handle_input` returns false for every input and performs no state mutation at
all — the returned simulator is exactly the argument, so every setting's
`current_value` and the `current_setting_index` are unchanged. -/
theorem C3_closed_session_no_mutation (b : BaseSimulator) (i : SimulatorInput)
    (now : ℚ) (h : b.running = false) :
    b.handle_input i now = (b, false) := by
  simp [BaseSimulator.handle_input, h]

theorem C3_closed_session_no_mutation_witness :
    BaseSimulator.handle_input ⟨SimulatorState.init [] 0, false⟩ SimulatorInput.RIGHT 1 =
      (⟨SimulatorState.init [] 0, false⟩, false) :=
  C3_closed_session_no_mutation _ _ _ rfl

/-- C4: for every `ProSetting` whose value lies in `[min_value, max_value]`
and every finite sequence of `adjust` calls, `current_value` stays within
`[min_value, max_value]` after each call (every write passes through the
clamping setter; instantiating the sequence at each prefix gives the bound
after every intermediate call). -/
theorem C4_clamping (p : ProSetting) (ds : List SimulatorInput)
    (hlo : p.range.min_value ≤ p.current_value)
    (hhi : p.current_value ≤ p.range.max_value) :
    p.range.min_value ≤ (applyAdjusts p ds).current_value ∧
      (applyAdjusts p ds).current_value ≤ p.range.max_value :=
  ⟨(applyAdjusts_mem_Icc p ds hlo hhi).2.1, (applyAdjusts_mem_Icc p ds hlo hhi).2.2⟩

theorem C4_clamping_witness :
    (ProSetting.init "final_drive" ⟨-1/5, 0, 1/100, 0, ""⟩).range.min_value ≤
        (applyAdjusts (ProSetting.init "final_drive" ⟨-1/5, 0, 1/100, 0, ""⟩)
          [SimulatorInput.RIGHT, SimulatorInput.LEFT, SimulatorInput.LEFT]).current_value ∧
      (applyAdjusts (ProSetting.init "final_drive" ⟨-1/5, 0, 1/100, 0, ""⟩)
          [SimulatorInput.RIGHT, SimulatorInput.LEFT, SimulatorInput.LEFT]).current_value ≤
        (ProSetting.init "final_drive" ⟨-1/5, 0, 1/100, 0, ""⟩).range.max_value :=
  C4_clamping _ _ (by norm_num [ProSetting.init]) (by norm_num [ProSetting.init])

/-- C9: every input delivered to `SimulatorState.handle_input` — navigation,
adjustment, or a boundary no-op that changes nothing else — updates
`last_input_time` to the current time. -/
theorem C9_last_input_time (s : SimulatorState) (i : SimulatorInput) (now : ℚ) :
    ((s.handle_input i now).1).last_input_time = now := by
  cases i <;> simp only [SimulatorState.handle_input] <;> (repeat' split) <;> rfl

/-- C10: for a `SimulatorState` constructed with an empty settings list,
`get_current_setting` returns none, and `handle_input` returns false for
every input while leaving `current_setting_index` at 0 (and, in the shallow
embedding, is total: no exception is raised). -/
theorem C10_empty_settings (t now : ℚ) (i : SimulatorInput) :
    (SimulatorState.init [] t).get_current_setting = none ∧
      ((SimulatorState.init [] t).handle_input i now).2 = false ∧
      ((SimulatorState.init [] t).handle_input i now).1.current_setting_index = 0 := by
  refine ⟨rfl, ?_, ?_⟩ <;> cases i <;> rfl

/-! ## Claim theorems: encoder rounding -/

/-- C5, counterexample: for the included delta setting `grip_front` with
target `1/2` and increment `1`, the code's `round` (Python: nearest, ties to
even — `round(0.5) = 0`) emits 0 ticks, while the claimed policy (nearest,
ties away from zero) demands 1 tick, so the claim as stated is false. -/
theorem C5_counterexample :
    (CarSetup.init [("grip_front", (1 : ℚ)/2)]).settings =
        [{ name := "grip_front", value := (1 : ℚ)/2, increment := 1, is_delta := true }] ∧
    ({ name := "grip_front", value := (1 : ℚ)/2, increment := 1,
       is_delta := true : CarSetting }).get_keystrokes.length = 0 ∧
    (roundHalfAwayFromZero (((1 : ℚ)/2) / 1)).natAbs = 1 := by
  have hlk : SETTING_DEFAULTS.lookup "grip_front" = none := rfl
  have hpr : pythonRound ((1 : ℚ)/2 / 1) = 0 := by unfold pythonRound; norm_num
  refine ⟨?_, ?_, ?_⟩
  · simp [CarSetup.init, all_settings, SETTING_INCREMENTS, SETTING_DEFAULTS,
      List.lookup, List.filterMap]
  · simp only [CarSetting.get_keystrokes, hlk]
    rw [if_neg (by norm_num), List.length_replicate, hpr]
    rfl
  · have hra : roundHalfAwayFromZero ((1 : ℚ)/2 / 1) = 1 := by
      unfold roundHalfAwayFromZero; norm_num
    rw [hra]
    rfl

/-- C5, amended: for every setting with a non-zero increment the encoder's
tick count is `|round((start - target) / increment)|` for a setting with a
non-zero fixed start and `|round(target / increment)|` otherwise, where
`round` is Python's rounding to the nearest integer with ties to the even
neighbour — not ties away from zero. -/
theorem C5_rounding (c : CarSetting) (_hinc : c.increment ≠ 0) :
    c.get_keystrokes.length =
      (pythonRound ((match SETTING_DEFAULTS.lookup c.name with
        | some start_value => (start_value : ℚ) - c.value
        | none => c.value) / c.increment)).natAbs := by
  unfold CarSetting.get_keystrokes
  cases h : SETTING_DEFAULTS.lookup c.name with
  | some st =>
      simp only [h]
      rcases lt_trichotomy (pythonRound (((st : ℚ) - c.value) / c.increment)) 0 with h1 | h1 | h1
      · rw [if_neg (by omega), if_pos h1]
        simp
      · rw [if_neg (by omega), if_neg (by omega)]
        simp [h1]
      · rw [if_pos h1]
        simp only [List.length_replicate]
        omega
  | none =>
      simp only [h]
      by_cases hv : c.value = 0
      · simp [hv, pythonRound_zero]
      · simp [hv]

theorem C5_rounding_witness :
    ({ name := "grip_front", value := (1 : ℚ)/2, increment := 1,
       is_delta := true : CarSetting }).get_keystrokes.length =
      (pythonRound ((match SETTING_DEFAULTS.lookup "grip_front" with
        | some start_value => (start_value : ℚ) - (1 : ℚ)/2
        | none => (1 : ℚ)/2) / 1)).natAbs :=
  C5_rounding _ (by norm_num)

/-! ## Watchdog lock model: `BaseSimulator._check_timeout`

The watchdog thread runs `_check_timeout` (ui_simulator.py, lines 196-207):
it acquires `self._timeout_lock` (a non-reentrant `threading.Lock`), checks
`running` and `is_timed_out()`, and on a timeout calls
`self.handle_timeout(reason)` — whose body (lines 215-218) acquires the very
same lock again — still inside the outer `with` block.  The following small
step machine embeds the watchdog thread's program points together with the
lock.  Acquiring a held lock takes no step (`none`): with a non-reentrant
lock and no other thread releasing it, the thread is blocked forever. -/

/-- Program points of the watchdog thread inside `_check_timeout`, including
the inlined body of `handle_timeout`. -/
inductive WdPc where
  | whileCheck
  | acquireOuter
  | innerCheck
  | htAcquire
  | htSetStop
  | htRelease
  | releaseBreak
  | releaseSleep
  | exited
deriving DecidableEq, Repr

/-- Configuration of the watchdog thread: the shared `running` flag, whether
`_timeout_lock` is held, the (frozen) result of `is_timed_out()`, and the
thread's program point. -/
structure WdConfig where
  running : Bool
  lockHeld : Bool
  timedOut : Bool
  pc : WdPc
deriving DecidableEq, Repr

/-- One small step of the watchdog thread of `_check_timeout`; `none` means
the thread cannot step (blocked on the lock, or already exited). -/
def wdStep (c : WdConfig) : Option WdConfig :=
  match c.pc with
  | .whileCheck =>
      some (if c.running then { c with pc := .acquireOuter } else { c with pc := .exited })
  | .acquireOuter =>
      if c.lockHeld then none else some { c with lockHeld := true, pc := .innerCheck }
  | .innerCheck =>
      some (if !c.running then { c with pc := .releaseBreak }
            else if c.timedOut then { c with pc := .htAcquire }
            else { c with pc := .releaseSleep })
  | .htAcquire =>
      if c.lockHeld then none else some { c with lockHeld := true, pc := .htSetStop }
  | .htSetStop => some { c with running := false, pc := .htRelease }
  | .htRelease => some { c with lockHeld := false, pc := .releaseBreak }
  | .releaseBreak => some { c with lockHeld := false, pc := .exited }
  | .releaseSleep => some { c with lockHeld := false, pc := .whileCheck }
  | .exited => none

/-- Runs `n` watchdog steps, propagating a block. -/
def wdRun : WdConfig → ℕ → Option WdConfig
  | c, 0 => some c
  | c, n + 1 => (wdStep c).bind (wdRun · n)

/-- C2: starting from a running, timed-out session with the lock free, the
watchdog observes the timeout and reaches the lock acquisition inside
`handle_timeout` while already holding `_timeout_lock`; there it has no step
(deadlock) and `running` is still true — the code never reaches the
`running = False` write, contradicting the claim that a timed-out session
always ends up not running (the repository's own tests, e.g.
`test_simulator_timeout`, assert the claimed behaviour). -/
theorem C2_watchdog_deadlock :
    wdRun { running := true, lockHeld := false, timedOut := true, pc := WdPc.whileCheck } 3 =
        some { running := true, lockHeld := true, timedOut := true, pc := WdPc.htAcquire } ∧
    wdStep { running := true, lockHeld := true, timedOut := true, pc := WdPc.htAcquire } = none ∧
    ({ running := true, lockHeld := true, timedOut := true, pc := WdPc.htAcquire } : WdConfig).running
      = true := by
  refine ⟨rfl, rfl, rfl⟩

/-! ## Claim theorems: session life cycle -/

/-- C7, counterexample: the claim quantifies over every sequence of
`start()`, `stop()`, `handle_input()` and watchdog steps, but
`BaseSimulator.start` sets `running = True` unconditionally, so the sequence
start, stop, start drives `running` from false back to true. -/
theorem C7_counterexample :
    (BaseSimulator.run { state := SimulatorState.init [] 0, running := false }
        [SimStep.start, SimStep.stop]).running = false ∧
    (BaseSimulator.run { state := SimulatorState.init [] 0, running := false }
        [SimStep.start, SimStep.stop, SimStep.start]).running = true := by
  exact ⟨rfl, rfl⟩

/-- C7, amended: once `running` is false it stays false under every sequence
of `stop()`, `handle_input()` and watchdog steps — only a renewed `start()`
call (which the code does not guard against) can set it true again. -/
theorem C7_no_restart (b : BaseSimulator) (l : List SimStep)
    (hl : ∀ s ∈ l, s ≠ SimStep.start) (h : b.running = false) :
    (b.run l).running = false := by
  induction l generalizing b with
  | nil => exact h
  | cons s rest ih =>
      have hs := hl s (List.mem_cons_self s rest)
      have hrest : ∀ x ∈ rest, x ≠ SimStep.start := fun x hx => hl x (List.mem_cons_of_mem _ hx)
      have hstep : (b.step s).running = false := by
        cases s with
        | start => exact absurd rfl hs
        | stop => simp [BaseSimulator.step, BaseSimulator.stop, h]
        | input i now => simp [BaseSimulator.step, BaseSimulator.handle_input, h]
        | watchdog now => simp [BaseSimulator.step, BaseSimulator.watchdogCheck, h]
      simpa [BaseSimulator.run] using ih (b.step s) hrest hstep

theorem C7_no_restart_witness :
    (BaseSimulator.run { state := SimulatorState.init [] 0, running := false }
        [SimStep.stop, SimStep.input SimulatorInput.RIGHT 1, SimStep.watchdog 20]).running = false :=
  C7_no_restart _ _ (by decide) rfl

/-! ## Claim theorems: adjustment reversibility -/

/-- Clamping a value already inside the range is the identity. -/
theorem clamp_eq_self (r : SettingRange) (v : ℚ) (hlo : r.min_value ≤ v)
    (hhi : v ≤ r.max_value) : max r.min_value (min r.max_value v) = v := by
  rw [min_eq_right hhi, max_eq_right hlo]

/-- C8, counterexample: for `final_drive` (range `[-1/5, 0]`, increment
`1/100`) at its default 0, the increase-input (Right) is a no-op at the upper
boundary, yet the immediately following decrease-input (Left) moves the value
to `-1/100 ≠ 0` — so "the value is unchanged by both inputs" fails. -/
theorem C8_counterexample :
    ((ProSetting.init "final_drive" ⟨-1/5, 0, 1/100, 0, ""⟩).adjust SimulatorInput.RIGHT).2
        = false ∧
    ((((ProSetting.init "final_drive" ⟨-1/5, 0, 1/100, 0, ""⟩).adjust
          SimulatorInput.RIGHT).1.adjust SimulatorInput.LEFT).1).current_value = -1/100 ∧
    ((-1 : ℚ)/100 ≠ 0) ∧
    (ProSetting.init "final_drive" ⟨-1/5, 0, 1/100, 0, ""⟩).current_value = 0 := by
  have hni : "final_drive" ∉ invertedNames := by decide
  refine ⟨?_, ?_, by norm_num, rfl⟩
  · simp only [ProSetting.init, ProSetting.adjust, ProSetting.setCurrentValue,
      ProSetting.rawNext, hni, ite_false, if_neg, not_false_iff]
    norm_num [min_def, max_def]
  · simp only [ProSetting.init, ProSetting.adjust, ProSetting.setCurrentValue,
      ProSetting.rawNext, hni, ite_false, if_neg, not_false_iff]
    norm_num [min_def, max_def]

/-- C8, amended: applying the increase-input then immediately the
decrease-input (or vice versa) returns `current_value` to its exact prior
value whenever the start value is in range and the first adjustment moved by
a full increment (was not truncated by clamping and not a no-op); when the
first input is a boundary no-op the pair instead acts like the second input
alone, which may move the value one increment inward. -/
theorem C8_reversible (p : ProSetting) (d₁ d₂ : SimulatorInput)
    (hpair : (d₁ = SimulatorInput.RIGHT ∧ d₂ = SimulatorInput.LEFT) ∨
             (d₁ = SimulatorInput.LEFT ∧ d₂ = SimulatorInput.RIGHT))
    (hlo : p.range.min_value ≤ p.current_value)
    (hhi : p.current_value ≤ p.range.max_value)
    (hfull : ((p.adjust d₁).1).current_value = p.rawNext d₁) :
    (((p.adjust d₁).1).adjust d₂).1.current_value = p.current_value := by
  rcases hpair with ⟨rfl, rfl⟩ | ⟨rfl, rfl⟩ <;>
    by_cases hinv : p.name ∈ invertedNames <;>
      simp only [ProSetting.adjust, ProSetting.setCurrentValue, ProSetting.rawNext,
        hinv, ite_true, ite_false, not_false_iff] at hfull ⊢ <;>
      rw [hfull] <;>
      first
      | (rw [sub_add_cancel]; exact clamp_eq_self _ _ hlo hhi)
      | (rw [add_sub_cancel_right]; exact clamp_eq_self _ _ hlo hhi)

theorem C8_reversible_witness :
    ((((⟨"final_drive", ⟨-1/5, 0, 1/100, 0, ""⟩, -1/10⟩ : ProSetting).adjust
        SimulatorInput.RIGHT).1).adjust SimulatorInput.LEFT).1.current_value = -1/10 :=
  C8_reversible _ _ _ (Or.inl ⟨rfl, rfl⟩) (by norm_num) (by norm_num)
    (by
      have hni : "final_drive" ∉ invertedNames := by decide
      simp only [ProSetting.adjust, ProSetting.setCurrentValue, ProSetting.rawNext,
        hni, ite_false, not_false_iff]
      norm_num [min_def, max_def])

/-! ## Claim theorems: script structure -/

/-- Unfolds the let bindings of `CarSetting.get_keystrokes` into a let-free
form convenient for rewriting. -/
theorem get_keystrokes_eq (c : CarSetting) :
    c.get_keystrokes =
      match SETTING_DEFAULTS.lookup c.name with
      | some st =>
          if 0 < pythonRound (((st : ℚ) - c.value) / c.increment) then
            List.replicate (pythonRound (((st : ℚ) - c.value) / c.increment)).toNat "Right"
          else if pythonRound (((st : ℚ) - c.value) / c.increment) < 0 then
            List.replicate (pythonRound (((st : ℚ) - c.value) / c.increment)).natAbs "Left"
          else []
      | none =>
          if c.value = 0 then []
          else List.replicate (pythonRound (c.value / c.increment)).natAbs
            (if 0 < pythonRound (c.value / c.increment) then "Right" else "Left") := rfl

/-- Every emitted keystroke is a Right or a Left tick. -/
theorem get_keystrokes_mem (c : CarSetting) :
    ∀ k ∈ c.get_keystrokes, k = "Right" ∨ k = "Left" := by
  rw [get_keystrokes_eq]
  rcases h : SETTING_DEFAULTS.lookup c.name with _ | st <;> simp only [h] <;> intro k hk
  · split at hk
    · simp at hk
    · have := List.eq_of_mem_replicate hk
      subst this
      split <;> simp
  · split at hk
    · exact Or.inl (List.eq_of_mem_replicate hk)
    · split at hk
      · exact Or.inr (List.eq_of_mem_replicate hk)
      · simp at hk

/-- No per-setting comment line coincides with the advance marker. -/
theorem adjustingComment_ne_downLine : ∀ n ∈ all_settings, adjustingComment n ≠ downLine := by
  decide

/-- No tick line coincides with the advance marker. -/
theorem send_ne_downLine (k : String) (hk : k = "Right" ∨ k = "Left") :
    ("    Send \x7b" ++ k ++ "\x7d") ≠ downLine := by
  rcases hk with rfl | rfl <;> decide

/-- The tick lines of one setting contain no advance marker. -/
theorem count_down_sends (c : CarSetting) :
    (c.get_keystrokes.map (fun key => "    Send \x7b" ++ key ++ "\x7d")).count downLine = 0 := by
  rw [List.count_eq_zero]
  intro hmem
  rcases List.mem_map.1 hmem with ⟨k, hk, heq⟩
  exact send_ne_downLine k (get_keystrokes_mem c k hk) heq

/-- The body of the script contains one advance marker per tick-emitting
setting, less one when the flag starts lowered (no marker before the first
emitting setting). -/
theorem count_down_scriptBody (l : List CarSetting) (hl : ∀ s ∈ l, s.name ∈ all_settings)
    (nd : Bool) :
    (scriptBody l nd).count downLine =
      (if nd then l.countP (fun s => !s.get_keystrokes.isEmpty)
       else l.countP (fun s => !s.get_keystrokes.isEmpty) - 1) := by
  induction l generalizing nd with
  | nil => cases nd <;> simp [scriptBody]
  | cons s rest ih =>
      have hsname := hl s (List.mem_cons_self s rest)
      have hrest : ∀ x ∈ rest, x.name ∈ all_settings := fun x hx =>
        hl x (List.mem_cons_of_mem _ hx)
      by_cases he : s.get_keystrokes.isEmpty
      · rw [show scriptBody (s :: rest) nd = scriptBody rest nd by
          simp [scriptBody, he]]
        rw [ih hrest nd]
        simp [List.countP_cons, he]
      · rw [show scriptBody (s :: rest) nd =
            [adjustingComment s.name] ++ (if nd then [downLine] else [])
              ++ s.get_keystrokes.map (fun key => "    Send \x7b" ++ key ++ "\x7d")
              ++ scriptBody rest true by
          simp [scriptBody, he]]
        rw [List.count_append, List.count_append, List.count_append]
        rw [ih hrest true, count_down_sends]
        have hc : ([adjustingComment s.name].count downLine) = 0 := by
          rw [List.count_eq_zero]
          simp only [List.mem_singleton]
          intro hmem
          exact adjustingComment_ne_downLine s.name hsname hmem.symm
        rw [hc]
        have hcp : (s :: rest).countP (fun x => !x.get_keystrokes.isEmpty) =
            rest.countP (fun x => !x.get_keystrokes.isEmpty) + 1 := by
          simp [List.countP_cons, he]
        rw [hcp]
        cases nd
        · simp
        · simp [List.count_cons]
          omega

/-- Every included setting of a `CarSetup` bears a canonical catalog name. -/
theorem mem_settings_name (d : List (String × ℚ)) :
    ∀ s ∈ (CarSetup.init d).settings, s.name ∈ all_settings := by
  intro s hs
  simp only [CarSetup.init] at hs
  rcases List.mem_filterMap.1 hs with ⟨n, hn, hf⟩
  rcases h1 : d.lookup n with _ | v <;> rw [h1] at hf
  · simp at hf
  · rcases h2 : SETTING_INCREMENTS.lookup n with _ | inc <;> rw [h2] at hf
    · simp at hf
    · simp only [Option.some_inj] at hf
      rw [← hf]
      exact hn

/-- C6, amended: in every generated script the number of advance markers
(`Send \x7bDown\x7d` lines) is one less than the number of settings that emit
at least one tick (truncated at zero): exactly one marker between two
consecutive *tick-emitting* settings, none before the first or after the
last, and none for auto-skipped or included-but-zero-tick settings, which
emit no block at all. -/
theorem C6_down_count (d : List (String × ℚ)) :
    ((CarSetup.init d).generate_ahk_script_lines).count downLine =
      (CarSetup.init d).settings.countP (fun s => !s.get_keystrokes.isEmpty) - 1 := by
  unfold CarSetup.generate_ahk_script_lines
  simp only [List.count_append]
  rw [count_down_scriptBody (CarSetup.init d).settings (mem_settings_name d) false]
  have h1 : (["#SingleInstance Force", "SetWorkingDir %A_ScriptDir%", "",
      "; Command line mode support",
      "if (A_Args.Length() > 0 && A_Args[1] = \"--cli\") \x7b",
      "    SetTimer, ApplySettings, -100  ; Run after 100ms", "    return", "\x7d", "",
      "; Default starting positions:",
      "; - Front Power Distribution: Starts at 60% (right to decrease)",
      "; - Front Brake Balance: Starts at 80% (right to decrease)",
      "; - All other settings: Start at 0", "",
      "; Auto-skipped settings (not available for this car):"] : List String).count downLine
      = 0 := by decide
  have h2 : ((CarSetup.init d).auto_skipped_settings.map
      (fun setting => "; - " ++ setting)).count downLine = 0 := by
    rw [List.count_eq_zero]
    intro hmem
    rcases List.mem_map.1 hmem with ⟨n, hn, heq⟩
    simp only [CarSetup.init] at hn
    have hnall : n ∈ all_settings := List.mem_of_mem_filter hn
    have hne : ∀ m ∈ all_settings, "; - " ++ m ≠ downLine := by decide
    exact hne n hnall heq
  have h3 : (["", "ApplySettings:", "\x7b",
      "    SetKeyDelay, 50, 50  ; Adjust timing if needed", ""] : List String).count downLine
      = 0 := by decide
  have h4 : (["", "    if (A_Args.Length() > 0 && A_Args[1] = \"--cli\") \x7b",
      "        ExitApp", "    \x7d else \x7b", "        MsgBox, Settings applied!",
      "    \x7d", "    return", "\x7d"] : List String).count downLine = 0 := by decide
  rw [h1, h2, h3, h4]
  simp only [Bool.false_eq_true, if_false]
  omega

/-- C6, counterexample: for the target configuration with `final_drive = 5`,
`grip_front = 0` and `grip_rear = 3` the setup includes three settings, so
the claim ("between two consecutive included settings exactly one advance
marker") demands one marker after `final_drive` and one after `grip_front` —
two in total — but the script contains exactly one `Send \x7bDown\x7d`
line, because the included zero-tick setting `grip_front` emits no block and
no marker. -/
theorem C6_counterexample :
    ((CarSetup.init [("final_drive", (5 : ℚ)), ("grip_front", 0), ("grip_rear", 3)]
        ).generate_ahk_script_lines).count downLine = 1 ∧
    (CarSetup.init [("final_drive", (5 : ℚ)), ("grip_front", 0), ("grip_rear", 3)]
        ).settings.length = 3 := by
  have hp5 : pythonRound ((5 : ℚ) / 1) = 5 := by unfold pythonRound; norm_num
  have hp3 : pythonRound ((3 : ℚ) / 1) = 3 := by unfold pythonRound; norm_num
  have hk1 : ((⟨"final_drive", (5 : ℚ), 1, true⟩ : CarSetting)).get_keystrokes
      = List.replicate 5 "Right" := by
    rw [get_keystrokes_eq]
    simp only [show SETTING_DEFAULTS.lookup "final_drive" = none from rfl]
    rw [if_neg (by norm_num), hp5]
    rfl
  have hk2 : ((⟨"grip_front", (0 : ℚ), 1, true⟩ : CarSetting)).get_keystrokes = [] := by
    rw [get_keystrokes_eq]
    simp only [show SETTING_DEFAULTS.lookup "grip_front" = none from rfl]
    simp
  have hk3 : ((⟨"grip_rear", (3 : ℚ), 1, true⟩ : CarSetting)).get_keystrokes
      = List.replicate 3 "Right" := by
    rw [get_keystrokes_eq]
    simp only [show SETTING_DEFAULTS.lookup "grip_rear" = none from rfl]
    rw [if_neg (by norm_num), hp3]
    rfl
  have hsettings : (CarSetup.init [("final_drive", (5 : ℚ)), ("grip_front", 0),
      ("grip_rear", 3)]).settings =
      [(⟨"final_drive", (5 : ℚ), 1, true⟩ : CarSetting),
       (⟨"grip_front", (0 : ℚ), 1, true⟩ : CarSetting),
       (⟨"grip_rear", (3 : ℚ), 1, true⟩ : CarSetting)] := by
    simp [CarSetup.init, all_settings, SETTING_INCREMENTS, SETTING_DEFAULTS,
      List.lookup, List.filterMap]
  have hauto : (CarSetup.init [("final_drive", (5 : ℚ)), ("grip_front", 0),
      ("grip_rear", 3)]).auto_skipped_settings =
      ["front_power_distrib", "front_brake_balance", "brake_power",
       "load_front", "load_rear", "spring_front", "spring_rear", "compression_front",
       "compression_rear", "rebound_front", "rebound_rear", "arb_front", "arb_rear",
       "camber_front", "camber_rear"] := by
    simp [CarSetup.init, all_settings, SETTING_INCREMENTS, List.lookup, List.filter]
  constructor
  · unfold CarSetup.generate_ahk_script_lines
    rw [hsettings, hauto]
    rw [show scriptBody
        [(⟨"final_drive", (5 : ℚ), 1, true⟩ : CarSetting),
         (⟨"grip_front", (0 : ℚ), 1, true⟩ : CarSetting),
         (⟨"grip_rear", (3 : ℚ), 1, true⟩ : CarSetting)] false =
        [adjustingComment "final_drive"]
          ++ (List.replicate 5 "Right").map (fun key => "    Send \x7b" ++ key ++ "\x7d")
          ++ ([adjustingComment "grip_rear"] ++ [downLine]
              ++ (List.replicate 3 "Right").map (fun key => "    Send \x7b" ++ key ++ "\x7d"))
        from by simp [scriptBody, hk1, hk2, hk3]]
    decide
  · rw [hsettings]
    rfl

/-! ## Claim theorems: encoder versus live session -/

/-- For an adjustment input, `adjust` is exactly the clamped write of the
raw candidate value. -/
theorem ProSetting.adjust_fst_eq (p : ProSetting) (d : SimulatorInput)
    (hd : d = SimulatorInput.LEFT ∨ d = SimulatorInput.RIGHT) :
    (p.adjust d).1 = p.setCurrentValue (p.rawNext d) := by
  rcases hd with rfl | rfl <;> rfl

/-- When every tick of direction `d` moves the raw value by a constant step
and every intermediate value stays inside the range (so clamping never
truncates), `n` ticks move `current_value` by exactly `n` steps. -/
theorem applyAdjusts_replicate_linear (d : SimulatorInput) (δ : ℚ) (n : ℕ) (p : ProSetting)
    (hd_adj : d = SimulatorInput.LEFT ∨ d = SimulatorInput.RIGHT)
    (hd : ∀ q : ProSetting, q.name = p.name → q.range = p.range →
      q.rawNext d = q.current_value + δ)
    (hin : ∀ k : ℕ, k ≤ n → p.range.min_value ≤ p.current_value + k * δ ∧
      p.current_value + k * δ ≤ p.range.max_value) :
    (applyAdjusts p (List.replicate n d)).current_value = p.current_value + n * δ := by
  induction n generalizing p with
  | zero => simp [applyAdjusts]
  | succ n ih =>
      have h1 := hin 1 (by omega)
      rw [Nat.cast_one, one_mul] at h1
      have hstep : ((p.adjust d).1).current_value = p.current_value + δ := by
        rw [ProSetting.adjust_fst_eq p d hd_adj]
        simp only [ProSetting.setCurrentValue]
        rw [hd p rfl rfl]
        exact clamp_eq_self _ _ h1.1 h1.2
      have hname := ProSetting.adjust_fst_name p d
      have hrange := ProSetting.adjust_fst_range p d
      rw [show applyAdjusts p (List.replicate (n + 1) d) =
          applyAdjusts (p.adjust d).1 (List.replicate n d) by
        simp [applyAdjusts, List.replicate_succ]]
      rw [ih ((p.adjust d).1)
        (fun q hq1 hq2 => hd q (hq1.trans hname) (hq2.trans hrange))
        (by
          intro k hk
          rw [hrange, hstep]
          have := hin (k + 1) (by omega)
          push_cast at this ⊢
          constructor <;> linarith [this.1, this.2])]
      rw [hstep]
      push_cast
      ring

/-- For an inverted setting sitting at its minimum, Right ticks (which lower
the raw value) are clamped no-ops: any number of them leaves the value at the
minimum. -/
theorem applyAdjusts_right_min_inverted (n : ℕ) (p : ProSetting)
    (hinv : p.name ∈ invertedNames)
    (hmin : p.current_value = p.range.min_value)
    (hinc : 0 ≤ p.range.increment)
    (hmm : p.range.min_value ≤ p.range.max_value) :
    (applyAdjusts p (List.replicate n SimulatorInput.RIGHT)).current_value
      = p.range.min_value := by
  induction n generalizing p with
  | zero => simpa [applyAdjusts] using hmin
  | succ n ih =>
      have hstep : ((p.adjust SimulatorInput.RIGHT).1).current_value
          = p.range.min_value := by
        rw [ProSetting.adjust_fst_eq p _ (Or.inr rfl)]
        simp only [ProSetting.setCurrentValue, ProSetting.rawNext, hinv, ite_true]
        rw [hmin]
        rw [min_eq_right (by linarith), max_eq_left (by linarith)]
      have hname := ProSetting.adjust_fst_name p SimulatorInput.RIGHT
      have hrange := ProSetting.adjust_fst_range p SimulatorInput.RIGHT
      rw [show applyAdjusts p (List.replicate (n + 1) SimulatorInput.RIGHT) =
          applyAdjusts (p.adjust SimulatorInput.RIGHT).1
            (List.replicate n SimulatorInput.RIGHT) by
        simp [applyAdjusts, List.replicate_succ]]
      rw [show p.range.min_value = (p.adjust SimulatorInput.RIGHT).1.range.min_value by
        rw [hrange]]
      exact ih _ (hname ▸ hinv) (by rw [hstep, hrange]) (by rw [hrange]; exact hinc)
        (by rw [hrange]; exact hmm)

/-- Modelled from the spec: the ranges parsed by `load_setting_ranges`
(ui_simulator.py, lines 107-161) come from `pro_settings_description.csv`,
which is not part of `src/`.  The `min_value`/`max_value` entries below
follow the spec (§4.1: the two inverted settings have non-zero default 40%;
ranges are the documented percentage ranges) and the repository's tests
(`test_default_value_positioning`, `test_csv_range_enforcement`:
`final_drive` and `grip_front` span -20%..0%, `front_power_distrib`
20%..60%, `front_brake_balance` 40%..80%).  The defaults (0.4 for the two
inverted settings) and the uniform increment 0.01 are hard-coded in
`load_setting_ranges` itself (lines 134-145). -/
def load_setting_ranges : List (String × SettingRange) :=
  [("final_drive", ⟨-1/5, 0, 1/100, 0, ""⟩),
   ("front_power_distrib", ⟨1/5, 3/5, 1/100, 2/5, ""⟩),
   ("grip_front", ⟨-1/5, 0, 1/100, 0, ""⟩),
   ("front_brake_balance", ⟨2/5, 4/5, 1/100, 2/5, ""⟩)]

/-- C1, counterexample: for `front_brake_balance` the encoder and the live
session disagree.  The encoder assumes a fixed start of 80 and emits, for
target 60, twenty Right ticks; the live `ProSetting` built from the catalog
entry starts at its default 0.4 = 40%, where Right ticks (which decrease an
inverted setting) are clamped no-ops at the range minimum: twenty Right
adjusts leave the value at 2/5, not at the clamped target 3/5 = 60%, which
twenty Left adjusts would reach.  Both the tick count (20 versus the 20
*Left* ticks actually needed) and the direction differ, refuting the claimed
equivalence. -/
theorem C1_counterexample :
    load_setting_ranges.lookup "front_brake_balance" = some ⟨2/5, 4/5, 1/100, 2/5, ""⟩ ∧
    ((⟨"front_brake_balance", 60, 1, false⟩ : CarSetting)).get_keystrokes
        = List.replicate 20 "Right" ∧
    (applyAdjusts (ProSetting.init "front_brake_balance" ⟨2/5, 4/5, 1/100, 2/5, ""⟩)
        (List.replicate 20 SimulatorInput.RIGHT)).current_value = 2/5 ∧
    (applyAdjusts (ProSetting.init "front_brake_balance" ⟨2/5, 4/5, 1/100, 2/5, ""⟩)
        (List.replicate 20 SimulatorInput.LEFT)).current_value = 3/5 ∧
    ((2 : ℚ)/5 ≠ 3/5) := by
  refine ⟨rfl, ?_, ?_, ?_, by norm_num⟩
  · rw [get_keystrokes_eq]
    simp only [show SETTING_DEFAULTS.lookup "front_brake_balance" = some 80 from rfl]
    have hp : pythonRound ((((80 : ℤ) : ℚ) - 60) / 1) = 20 := by
      unfold pythonRound
      norm_num
    rw [hp, if_pos (by norm_num)]
    rfl
  · exact applyAdjusts_right_min_inverted 20 _ (by decide) rfl
      (by norm_num [ProSetting.init]) (by norm_num [ProSetting.init])
  · have h := applyAdjusts_replicate_linear SimulatorInput.LEFT (1/100) 20
      (ProSetting.init "front_brake_balance" ⟨2/5, 4/5, 1/100, 2/5, ""⟩)
      (Or.inl rfl)
      (by
        intro q h1 h2
        simp only [ProSetting.init] at h1 h2
        simp only [ProSetting.rawNext, h1]
        rw [if_pos (by decide), h2])
      (by
        intro k hk
        have hk2 : (k : ℚ) ≤ 20 := by exact_mod_cast hk
        have hk0 : (0 : ℚ) ≤ (k : ℚ) := Nat.cast_nonneg k
        simp only [ProSetting.init]
        constructor
        · show (2 : ℚ)/5 ≤ 2/5 + (k : ℚ) * (1/100)
          nlinarith
        · show (2 : ℚ)/5 + (k : ℚ) * (1/100) ≤ 4/5
          nlinarith)
    rw [h]
    norm_num [ProSetting.init]

/-- C1, amended: the encoder/live-session equivalence holds for the pure
delta settings (no fixed start, not direction-inverted) under the unit
correspondence `encoder target = k * encoder increment`,
`live target = k * live increment`: for any whole number of increments `k`
whose live value stays in range, the encoder emits exactly `|k|` ticks, Right
for positive `k` and Left for negative, and that many live adjusts in that
same direction move the setting from its default 0 exactly to the target.
For the two fixed-start settings (`front_power_distrib`,
`front_brake_balance`) the equivalence fails: the encoder's starts (60, 80)
differ from the live default (40) and its Right ticks move the live value
away from above-default targets. -/
theorem C1_delta_equivalence (name : String) (k : ℤ) (inc_enc m M inc : ℚ)
    (hn : SETTING_DEFAULTS.lookup name = none)
    (hn2 : name ∉ invertedNames)
    (hie : 0 < inc_enc) (hi : 0 ≤ inc)
    (hm : m ≤ 0) (hM : 0 ≤ M)
    (hlo : m ≤ (k : ℚ) * inc) (hhi : (k : ℚ) * inc ≤ M) :
    ((⟨name, (k : ℚ) * inc_enc, inc_enc, true⟩ : CarSetting)).get_keystrokes
        = List.replicate k.natAbs (if 0 < k then "Right" else "Left") ∧
    (applyAdjusts (ProSetting.init name ⟨m, M, inc, 0, ""⟩)
        (List.replicate k.natAbs
          (if 0 < k then SimulatorInput.RIGHT else SimulatorInput.LEFT))).current_value
      = (k : ℚ) * inc := by
  constructor
  · rw [get_keystrokes_eq]
    simp only [hn]
    by_cases hk : k = 0
    · subst hk
      rw [if_pos (by norm_num)]
      simp
    · rw [if_neg (by
        intro h0
        exact hk (by
          have := mul_eq_zero.1 h0
          rcases this with h | h
          · exact_mod_cast h
          · exact absurd h (ne_of_gt hie)))]
      have hq : ((k : ℚ) * inc_enc) / inc_enc = (k : ℚ) :=
        mul_div_cancel_right₀ _ (ne_of_gt hie)
      rw [hq, pythonRound_intCast]
  · by_cases hk : k = 0
    · subst hk
      simp [applyAdjusts, ProSetting.init]
    · rcases lt_trichotomy k 0 with h1 | h1 | h1
      · -- k < 0 : Left ticks, delta per tick is -inc
        rw [if_neg (by omega)]
        have hcast : ((k.natAbs : ℕ) : ℚ) = -(k : ℚ) := by
          rw [Int.cast_natAbs, abs_of_neg h1]
          push_cast
          ring
        have h := applyAdjusts_replicate_linear SimulatorInput.LEFT (-inc) k.natAbs
          (ProSetting.init name ⟨m, M, inc, 0, ""⟩)
          (Or.inl rfl)
          (by
            intro q hq1 hq2
            simp only [ProSetting.init] at hq1 hq2
            simp only [ProSetting.rawNext, hq1]
            rw [if_neg hn2, hq2]
            ring)
          (by
            intro j hj
            have hj2 : (j : ℚ) ≤ (k.natAbs : ℚ) := by exact_mod_cast hj
            have hj0 : (0 : ℚ) ≤ (j : ℚ) := Nat.cast_nonneg j
            have hkq : (k : ℚ) * inc = -((k.natAbs : ℚ) * inc) := by
              rw [hcast]; ring
            simp only [ProSetting.init]
            constructor
            · show m ≤ 0 + (j : ℚ) * (-inc)
              nlinarith [hlo, hkq]
            · show (0 : ℚ) + (j : ℚ) * (-inc) ≤ M
              nlinarith)
        rw [h]
        simp only [ProSetting.init]
        rw [hcast]
        ring
      · exact absurd h1 hk
      · -- k > 0 : Right ticks, delta per tick is inc
        rw [if_pos h1]
        have hcast : ((k.natAbs : ℕ) : ℚ) = (k : ℚ) := by
          rw [Int.cast_natAbs, abs_of_pos h1]
        have h := applyAdjusts_replicate_linear SimulatorInput.RIGHT inc k.natAbs
          (ProSetting.init name ⟨m, M, inc, 0, ""⟩)
          (Or.inr rfl)
          (by
            intro q hq1 hq2
            simp only [ProSetting.init] at hq1 hq2
            simp only [ProSetting.rawNext, hq1]
            rw [if_neg hn2, hq2])
          (by
            intro j hj
            have hj2 : (j : ℚ) ≤ (k.natAbs : ℚ) := by exact_mod_cast hj
            have hj0 : (0 : ℚ) ≤ (j : ℚ) := Nat.cast_nonneg j
            have hkq : (k : ℚ) * inc = (k.natAbs : ℚ) * inc := by rw [hcast]
            simp only [ProSetting.init]
            constructor
            · show m ≤ 0 + (j : ℚ) * inc
              nlinarith
            · show (0 : ℚ) + (j : ℚ) * inc ≤ M
              nlinarith [hhi, hkq])
        rw [h]
        simp only [ProSetting.init]
        rw [hcast]
        ring

theorem C1_delta_equivalence_witness :
    ((⟨"grip_front", (-5 : ℚ), 1, true⟩ : CarSetting)).get_keystrokes
        = List.replicate 5 "Left" ∧
    (applyAdjusts (ProSetting.init "grip_front" ⟨-1/5, 0, 1/100, 0, ""⟩)
        (List.replicate 5 SimulatorInput.LEFT)).current_value = -1/20 := by
  have h := C1_delta_equivalence "grip_front" (-5) 1 (-1/5) 0 (1/100) rfl (by decide)
    (by norm_num) (by norm_num) (by norm_num) (by norm_num) (by norm_num) (by norm_num)
  rw [show ((-5 : ℤ) : ℚ) * 1 = -5 from by norm_num] at h
  rw [show ((-5 : ℤ).natAbs) = 5 from rfl] at h
  rw [show (if (0 : ℤ) < -5 then "Right" else "Left") = "Left" from by norm_num] at h
  rw [show (if (0 : ℤ) < -5 then SimulatorInput.RIGHT else SimulatorInput.LEFT)
      = SimulatorInput.LEFT from by norm_num] at h
  rw [show ((-5 : ℤ) : ℚ) * (1/100) = -1/20 from by norm_num] at h
  exact h
